import Mathlib

/-!
Verification of the Automax backend against its natural-language
specification.  The pure parts of the source (pagination arithmetic,
lookup-category and lookup-value handler logic) are embedded directly; the
workflow engine, whose code is not among the provided files, is modelled
from the specification's description.
-/

set_option maxHeartbeats 1000000

namespace Automax

/-! ## Pagination (pkg/utils/response.go, PaginatedSuccessResponse) -/

/-- The value `totalPages`, as computed by `PaginatedSuccessResponse` in
`pkg/utils/response.go`: integer quotient `total / limit`, incremented when
the remainder is nonzero. -/
def totalPages (total limit : Nat) : Nat :=
  let tp := total / limit
  if total % limit ≠ 0 then tp + 1 else tp

/-! ## Lookup model (internal/models, lookup repository and handlers) -/

/-- Model of `models.LookupValue` (a live, non-soft-deleted row). -/
structure LookupValue where
  id : Nat
  categoryID : Nat
  code : String
  name : String
  nameAr : String
  description : String
  sortOrder : Int
  color : String
  isDefault : Bool
  isActive : Bool
  deriving Repr, DecidableEq

/-- Model of `models.LookupCategory`. -/
structure LookupCategory where
  id : Nat
  code : String
  name : String
  nameAr : String
  description : String
  isSystem : Bool
  isActive : Bool
  addToIncidentForm : Bool
  deriving Repr, DecidableEq

/-- Model of `models.LookupValueCreateRequest`. -/
structure LookupValueCreateRequest where
  code : String
  name : String
  nameAr : String
  description : String
  sortOrder : Int
  color : String
  isDefault : Bool
  isActive : Option Bool
  deriving Repr, DecidableEq

/-- Model of `models.LookupValueUpdateRequest`. -/
structure LookupValueUpdateRequest where
  code : String
  name : String
  nameAr : String
  description : String
  sortOrder : Option Int
  color : String
  isDefault : Option Bool
  isActive : Option Bool
  deriving Repr, DecidableEq

/-- Model of `models.LookupCategoryUpdateRequest`. -/
structure LookupCategoryUpdateRequest where
  code : String
  name : String
  nameAr : String
  description : String
  isActive : Option Bool
  addToIncidentForm : Option Bool
  deriving Repr, DecidableEq

/-- Model of `lookupRepository.ClearDefaultForCategory`: set `is_default = false` on
every value of the category. -/
def clearDefaultForCategory (categoryID : Nat) (store : List LookupValue) :
    List LookupValue :=
  store.map fun v =>
    if v.categoryID = categoryID then { v with isDefault := false } else v

/-- The `models.LookupValue` built by `LookupHandler.CreateValue` from the
request (code uppercased, `IsActive` defaulting to `true`). -/
def newLookupValue (categoryID freshID : Nat)
    (req : LookupValueCreateRequest) : LookupValue :=
  { id := freshID
    categoryID := categoryID
    code := req.code.toUpper
    name := req.name
    nameAr := req.nameAr
    description := req.description
    sortOrder := req.sortOrder
    color := req.color
    isDefault := req.isDefault
    isActive := req.isActive.getD true }

/-- The repository insert: fails (leaving the store alone) on a duplicate
primary key, appends otherwise. -/
def insertValue (store : List LookupValue) (value : LookupValue) :
    List LookupValue :=
  if store.any (fun v => v.id = value.id) then store else store ++ [value]

/-- Model of `LookupHandler.CreateValue` (happy path after body parsing and
validation): build the value, clear existing defaults for the category when
the new value is the default, then insert.  When the insert fails on a
duplicate primary key the clear, already issued, persists regardless. -/
def createValue (store : List LookupValue) (categoryID freshID : Nat)
    (req : LookupValueCreateRequest) : List LookupValue :=
  insertValue
    (if req.isDefault then clearDefaultForCategory categoryID store else store)
    (newLookupValue categoryID freshID req)

/-- The pure field updates of `LookupHandler.UpdateValue` (each field is
updated independently: empty strings mean "leave unchanged", `Option` fields
update when present). -/
def applyValueUpdate (req : LookupValueUpdateRequest) (v : LookupValue) :
    LookupValue :=
  { v with
    code := if req.code ≠ "" then req.code.toUpper else v.code
    name := if req.name ≠ "" then req.name else v.name
    nameAr := if req.nameAr ≠ "" then req.nameAr else v.nameAr
    description := if req.description ≠ "" then req.description else v.description
    sortOrder := req.sortOrder.getD v.sortOrder
    color := if req.color ≠ "" then req.color else v.color
    isDefault := req.isDefault.getD v.isDefault
    isActive := req.isActive.getD v.isActive }

/-- Model of `LookupHandler.UpdateValue`: find the value; when the request sets
`IsDefault = true` on a value that is not currently the default, first clear
all defaults for its category; then save the updated value. -/
def updateValue (store : List LookupValue) (id : Nat)
    (req : LookupValueUpdateRequest) : List LookupValue :=
  match store.find? (fun v => v.id = id) with
  | none => store
  | some v =>
    (if req.isDefault = some true ∧ v.isDefault = false then
        clearDefaultForCategory v.categoryID store
      else store).map
      fun w => if w.id = id then applyValueUpdate req v else w

/-- Model of `LookupHandler.DeleteValue`: soft-delete the value (it leaves the live
store). -/
def deleteValue (store : List LookupValue) (id : Nat) : List LookupValue :=
  store.filter fun v => v.id ≠ id

/-- One lookup-value handler invocation. -/
inductive LookupOp where
  | create (categoryID freshID : Nat) (req : LookupValueCreateRequest)
  | update (id : Nat) (req : LookupValueUpdateRequest)
  | delete (id : Nat)
  deriving Repr, DecidableEq

/-- Apply one lookup-value operation to the live store. -/
def applyLookupOp (store : List LookupValue) : LookupOp → List LookupValue
  | .create categoryID freshID req => createValue store categoryID freshID req
  | .update id req => updateValue store id req
  | .delete id => deleteValue store id

/-- Apply a sequence of lookup-value operations, left to right. -/
def applyLookupOps (store : List LookupValue) (ops : List LookupOp) :
    List LookupValue :=
  ops.foldl applyLookupOp store

/-- Whether a value is a default value of category `c`. -/
def isDefaultIn (c : Nat) (v : LookupValue) : Bool :=
  v.categoryID = c && v.isDefault

/-- At most one live value per category has `is_default = true`. -/
def atMostOneDefault (store : List LookupValue) : Prop :=
  ∀ c : Nat, store.countP (isDefaultIn c) ≤ 1

/-- Well-formed live store: primary keys are distinct. -/
def uniqueIDs (store : List LookupValue) : Prop :=
  (store.map LookupValue.id).Nodup

/-- The pure field updates of `LookupHandler.UpdateCategory`.  For a system
category only `Name`, `NameAr`, `Description` and `AddToIncidentForm` may be
modified; otherwise `Code` (uppercased) and `IsActive` may change as well. -/
def applyCategoryUpdate (req : LookupCategoryUpdateRequest)
    (c : LookupCategory) : LookupCategory :=
  if c.isSystem then
    { c with
      name := if req.name ≠ "" then req.name else c.name
      nameAr := if req.nameAr ≠ "" then req.nameAr else c.nameAr
      description := if req.description ≠ "" then req.description else c.description
      addToIncidentForm := req.addToIncidentForm.getD c.addToIncidentForm }
  else
    { c with
      code := if req.code ≠ "" then req.code.toUpper else c.code
      name := if req.name ≠ "" then req.name else c.name
      nameAr := if req.nameAr ≠ "" then req.nameAr else c.nameAr
      description := if req.description ≠ "" then req.description else c.description
      isActive := req.isActive.getD c.isActive
      addToIncidentForm := req.addToIncidentForm.getD c.addToIncidentForm }

/-- Model of `LookupHandler.DeleteCategory`: look the category up; a system category
yields HTTP 403 and no deletion; otherwise delete the category's values and
then the category (one transaction), answering 200.  The result is the
category store, the value store and the HTTP status. -/
def deleteCategory (cats : List LookupCategory) (vals : List LookupValue)
    (id : Nat) : List LookupCategory × List LookupValue × Nat :=
  match cats.find? (fun c => c.id = id) with
  | none => (cats, vals, 404)
  | some c =>
    if c.isSystem then (cats, vals, 403)
    else (cats.filter (fun c => c.id ≠ id), vals.filter (fun v => v.categoryID ≠ id), 200)

/-! ## Workflow engine

The workflow engine's source is not among the provided files; the
definitions below are modelled from the specification (§3–§5 of the design
document): states, transitions, requirement evaluation, action execution,
SLA computation, publication/validation, duplication, and the transition
engine with optimistic per-incident concurrency control. -/

/-- Modelled from the spec: a workflow `State` (identity, label, optional
SLA duration, initial/terminal flags); the source file defining it is not
provided. -/
structure WfState where
  id : Nat
  name : String
  slaDuration : Option Nat
  isInitial : Bool
  isTerminal : Bool
  deriving Repr, DecidableEq

/-- Modelled from the spec: a typed `Requirement` predicate — a closed set
of kinds dispatched by name, with kind-specific parameters. -/
structure Requirement where
  kind : String
  field : String
  param : String
  threshold : Nat
  deriving Repr, DecidableEq

/-- Modelled from the spec: a typed `Action` effect with kind-specific
parameters. -/
structure WfAction where
  kind : String
  field : String
  value : String
  deriving Repr, DecidableEq

/-- Modelled from the spec: a `Transition` (identity, source and target
state references, ordered requirements and actions, required permission). -/
structure Transition where
  id : Nat
  name : String
  sourceID : Nat
  targetID : Nat
  requirements : List Requirement
  actions : List WfAction
  permission : String
  deriving Repr, DecidableEq

/-- Modelled from the spec: a `WorkflowDefinition` (identity, incident-type
binding, states, transitions, version, published flag). -/
structure WorkflowDefinition where
  id : Nat
  incidentType : String
  states : List WfState
  transitions : List Transition
  version : Nat
  published : Bool
  deriving Repr, DecidableEq

/-- Modelled from the spec: an `Incident` (identity, type, binding to a
published definition version, current state, entry timestamp, field bag,
attachment count, owning department, optimistic revision counter,
soft-delete flag). -/
structure Incident where
  id : Nat
  incidentType : String
  definitionID : Nat
  currentState : Nat
  stateEnteredAt : Nat
  fields : List (String × String)
  attachments : Nat
  department : String
  revision : Nat
  deleted : Bool
  deriving Repr, DecidableEq

/-- Modelled from the spec: an immutable audit `RevisionEntry`. -/
structure RevisionEntry where
  incidentID : Nat
  fromState : Option Nat
  toState : Nat
  actorID : Nat
  timestamp : Nat
  deltas : List (String × String)
  deriving Repr, DecidableEq

/-- Modelled from the spec: an authenticated actor with permission
codes and roles treated as plain strings. -/
structure Actor where
  id : Nat
  permissions : List String
  roles : List String
  deriving Repr, DecidableEq

/-- Modelled from the spec: the engine's error taxonomy (§7). -/
inductive EngineError where
  | validationError
  | immutableDefinition
  | invalidTransition
  | terminalState
  | permissionDenied
  | requirementsNotMet (reasons : List String)
  | actionError (msg : String)
  | conflict
  | notFound
  deriving Repr, DecidableEq

/-- Modelled from the spec: `hasPermission(actor, code)` of the RBAC
collaborator. -/
def hasPermission (a : Actor) (code : String) : Bool :=
  a.permissions.contains code

/-- Modelled from the spec: `evaluate(requirement, incidentSnapshot, actor)`
— a pure predicate dispatching on the requirement kind; unknown kinds fail
closed with reason "unsupported requirement". -/
def evaluateRequirement (r : Requirement) (inc : Incident) (a : Actor) :
    Bool × String :=
  if r.kind = "field_non_empty" then
    (match inc.fields.lookup r.field with
      | some v => decide (v ≠ "")
      | none => false,
     "field " ++ r.field ++ " is empty")
  else if r.kind = "actor_has_role" then
    (a.roles.contains r.param, "actor lacks role " ++ r.param)
  else if r.kind = "attachment_count_ge" then
    (decide (r.threshold ≤ inc.attachments), "not enough attachments")
  else
    (false, "unsupported requirement")

/-- Modelled from the spec: evaluate every requirement of a transition and
collect the reasons of all the unsatisfied ones (logical AND, no
short-circuit). -/
def unmetReasons (rs : List Requirement) (inc : Incident) (a : Actor) :
    List String :=
  rs.filterMap fun r =>
    let p := evaluateRequirement r inc a
    if p.1 then none else some p.2

/-- Modelled from the spec: `apply(action, incident, payload)` — compute the
field deltas of one action or fail with an `ActionError` message; unknown
kinds fail. -/
def applyAction (act : WfAction) (inc : Incident)
    (payload : List (String × String)) : Except String (List (String × String)) :=
  if act.kind = "set_field" then
    .ok [(act.field, act.value)]
  else if act.kind = "set_field_from_payload" then
    match payload.lookup act.field with
    | some v => .ok [(act.field, v)]
    | none => .error ("missing payload field " ++ act.field)
  else if act.kind = "reassign" then
    .ok [("department", act.value)]
  else if act.kind = "notify" then
    .ok []
  else
    .error "unsupported action"

/-- Modelled from the spec: run the action list in declared order,
concatenating field deltas; the first failure aborts the whole list. -/
def applyActions (acts : List WfAction) (inc : Incident)
    (payload : List (String × String)) : Except String (List (String × String)) :=
  match acts with
  | [] => .ok []
  | a :: rest =>
    match applyAction a inc payload with
    | .error m => .error m
    | .ok d =>
      match applyActions rest inc payload with
      | .error m => .error m
      | .ok ds => .ok (d ++ ds)

/-- Modelled from the spec: write one field delta into the incident's field
bag (replace the key when present, append otherwise). -/
def setField (fields : List (String × String)) (kv : String × String) :
    List (String × String) :=
  if fields.any (fun p => p.1 = kv.1) then
    fields.map fun p => if p.1 = kv.1 then kv else p
  else fields ++ [kv]

/-- Modelled from the spec: apply all field deltas in order. -/
def applyDeltas (fields : List (String × String))
    (deltas : List (String × String)) : List (String × String) :=
  deltas.foldl setField fields

/-! ### SLA tracker (modelled from the spec, §4.4) -/

/-- Modelled from the spec: classification of an incident against its
current state's SLA. -/
inductive SLAState where
  | onTrack
  | atRisk
  | breached
  deriving Repr, DecidableEq

/-- Modelled from the spec: the result of `status(incident, definition)`. -/
structure SLAStatus where
  state : SLAState
  elapsed : Nat
  remaining : Option Nat
  deriving Repr, DecidableEq

/-- Modelled from the spec: the SLA duration of the incident's current
state, `none` when the state has no deadline (or is not found). -/
def currentSLADuration (d : WorkflowDefinition) (inc : Incident) : Option Nat :=
  match d.states.find? (fun s => s.id = inc.currentState) with
  | none => none
  | some s => s.slaDuration

/-- Modelled from the spec: `status(incident, definition)` — a pure function
of `now`, `state_entered_at` and the current state's SLA duration.  A null
duration yields `OnTrack`; elapsed beyond the duration is `Breached`; more
than 80% elapsed is `AtRisk`. -/
def slaStatus (now : Nat) (inc : Incident) (d : WorkflowDefinition) : SLAStatus :=
  let elapsed := now - inc.stateEnteredAt
  match d.states.find? (fun s => s.id = inc.currentState) with
  | none => ⟨.onTrack, elapsed, none⟩
  | some s =>
    match s.slaDuration with
    | none => ⟨.onTrack, elapsed, none⟩
    | some dur =>
      if dur < elapsed then ⟨.breached, elapsed, some 0⟩
      else if dur * 4 < elapsed * 5 then ⟨.atRisk, elapsed, some (dur - elapsed)⟩
      else ⟨.onTrack, elapsed, some (dur - elapsed)⟩

/-! ### Definition validation, publication and duplication
(modelled from the spec, §3, §4.1, §4.6) -/

/-- Modelled from the spec: exactly one state is marked initial. -/
def exactlyOneInitial (d : WorkflowDefinition) : Bool :=
  d.states.countP (fun s => s.isInitial) = 1

/-- Modelled from the spec: at least one state is marked terminal. -/
def hasTerminal (d : WorkflowDefinition) : Bool :=
  d.states.any (fun s => s.isTerminal)

/-- Modelled from the spec: every transition references a source and a
target state of the same definition. -/
def transitionsWellFormed (d : WorkflowDefinition) : Bool :=
  d.transitions.all fun t =>
    d.states.any (fun s => s.id = t.sourceID) &&
    d.states.any (fun s => s.id = t.targetID)

/-- Modelled from the spec: no transition targets the initial state. -/
def noReentryToInitial (d : WorkflowDefinition) : Bool :=
  d.transitions.all fun t =>
    d.states.all fun s => !(s.isInitial && s.id = t.targetID)

/-- Modelled from the spec: one breadth step of reachability — add the
target of every transition whose source is already reached. -/
def reachStep (d : WorkflowDefinition) (reached : List Nat) : List Nat :=
  d.transitions.foldl
    (fun acc t =>
      if acc.contains t.sourceID && !acc.contains t.targetID then
        acc ++ [t.targetID]
      else acc)
    reached

/-- Modelled from the spec: the state ids reachable from the initial state,
computed by iterating `reachStep` as many times as there are states. -/
def reachableIDs (d : WorkflowDefinition) : List Nat :=
  match d.states.find? (fun s => s.isInitial) with
  | none => []
  | some s0 => (reachStep d)^[d.states.length] [s0.id]

/-- Modelled from the spec: every state is reachable from the initial state
(no orphan states). -/
def allReachable (d : WorkflowDefinition) : Bool :=
  d.states.all fun s => (reachableIDs d).contains s.id

/-- Modelled from the spec: the §3 invariants of a workflow definition. -/
def validDefinition (d : WorkflowDefinition) : Bool :=
  exactlyOneInitial d && hasTerminal d && transitionsWellFormed d &&
    noReentryToInitial d && allReachable d

/-- Modelled from the spec: `publish(draft)` — editing a published
definition fails with `ImmutableDefinitionError`; an invalid draft fails
with `ValidationError`; otherwise the draft becomes published. -/
def publish (d : WorkflowDefinition) : Except EngineError WorkflowDefinition :=
  if d.published then .error .immutableDefinition
  else if validDefinition d then .ok { d with published := true }
  else .error .validationError

/-- Modelled from the spec: `duplicate(source)` — deep-copy states and
transitions into a new draft with fresh identities (`freshBase + index`),
remapping source/target references through an explicit old-id → new-id
table so that name-based topology and SLA durations are preserved. -/
def duplicate (d : WorkflowDefinition) (newDefID freshBase : Nat) :
    WorkflowDefinition :=
  let n := d.states.length
  let idMap : Nat → Nat := fun old =>
    match d.states.findIdx? (fun s => s.id = old) with
    | some i => freshBase + i
    | none => old
  { id := newDefID
    incidentType := d.incidentType
    states := d.states.enum.map fun p => { p.2 with id := freshBase + p.1 }
    transitions := d.transitions.enum.map fun p =>
      { p.2 with
        id := freshBase + n + p.1
        sourceID := idMap p.2.sourceID
        targetID := idMap p.2.targetID }
    version := d.version + 1
    published := false }

/-! ### Transition engine (modelled from the spec, §4.5 and §5)

Concurrency is modelled by the optimistic scheme the design notes name: a
call prepares a `TransitionIntent` against a snapshot of the store, and the
commit compares the incident's revision counter with the snapshot's before
writing; a stale intent fails with `ConflictError`. -/

/-- Modelled from the spec: the persisted store the engine acts on. -/
structure EngineState where
  incidents : List Incident
  revisions : List RevisionEntry
  deriving Repr, DecidableEq

/-- Modelled from the spec: everything a successful validation/evaluation
phase decides, to be committed atomically in step 6. -/
structure TransitionIntent where
  incidentID : Nat
  expectedRevision : Nat
  newIncident : Incident
  entry : RevisionEntry
  deriving Repr, DecidableEq

/-- Modelled from the spec: steps 1–5 of `requestTransition` — load the
incident and its bound published definition, resolve the transition
(`InvalidTransitionError` when missing or when its source differs from the
current state), reject terminal states, check the actor's permission,
evaluate all requirements, run all actions; produce the commit intent. -/
def prepareTransition (defs : List WorkflowDefinition) (st : EngineState)
    (incidentID transitionID : Nat) (actor : Actor)
    (payload : List (String × String)) (now : Nat) :
    Except EngineError TransitionIntent :=
  match st.incidents.find? (fun i => i.id = incidentID && !i.deleted) with
  | none => .error .notFound
  | some inc =>
    match defs.find? (fun d => d.id = inc.definitionID && d.published) with
    | none => .error .notFound
    | some wd =>
      match wd.transitions.find? (fun t => t.id = transitionID) with
      | none => .error .invalidTransition
      | some t =>
        if t.sourceID ≠ inc.currentState then .error .invalidTransition
        else if (wd.states.find? (fun s => s.id = inc.currentState)).elim
            false (fun s => s.isTerminal) then .error .terminalState
        else if !hasPermission actor t.permission then .error .permissionDenied
        else if unmetReasons t.requirements inc actor ≠ [] then
          .error (.requirementsNotMet (unmetReasons t.requirements inc actor))
        else
            match applyActions t.actions inc payload with
            | .error m => .error (.actionError m)
            | .ok deltas =>
              .ok
                { incidentID := inc.id
                  expectedRevision := inc.revision
                  newIncident :=
                    { inc with
                      currentState := t.targetID
                      stateEnteredAt := now
                      fields := applyDeltas inc.fields deltas
                      revision := inc.revision + 1 }
                  entry :=
                    { incidentID := inc.id
                      fromState := some inc.currentState
                      toState := t.targetID
                      actorID := actor.id
                      timestamp := now
                      deltas := deltas } }

/-- Modelled from the spec: step 6 — the atomic commit.  Compare-and-swap on
the incident's revision counter: a matching revision writes the new incident
and appends exactly one `RevisionEntry`; a stale one fails with
`ConflictError` and changes nothing. -/
def commitTransition (st : EngineState) (intent : TransitionIntent) :
    EngineState × Except EngineError Incident :=
  match st.incidents.find? (fun i => i.id = intent.incidentID && !i.deleted) with
  | none => (st, .error .conflict)
  | some cur =>
    if cur.revision = intent.expectedRevision then
      ({ incidents :=
           st.incidents.map fun i =>
             if i.id = intent.incidentID then intent.newIncident else i
         revisions := st.revisions ++ [intent.entry] },
       .ok intent.newIncident)
    else (st, .error .conflict)

/-- Modelled from the spec: `requestTransition` — prepare, then commit; any
failure leaves the store untouched and is reported to the caller. -/
def requestTransition (defs : List WorkflowDefinition) (st : EngineState)
    (incidentID transitionID : Nat) (actor : Actor)
    (payload : List (String × String)) (now : Nat) :
    EngineState × Except EngineError Incident :=
  match prepareTransition defs st incidentID transitionID actor payload now with
  | .error e => (st, .error e)
  | .ok intent => commitTransition st intent

/-! ## Sample fixtures used by the witnesses -/

/-- A sample two-state published workflow: `New` (initial) → `Done`
(terminal, 24h SLA) via transition 2, plus transition 3 to the terminal
state `Alt`. -/
def sampleDef : WorkflowDefinition :=
  { id := 7
    incidentType := "incident"
    states :=
      [{ id := 0, name := "New", slaDuration := none, isInitial := true,
         isTerminal := false },
       { id := 1, name := "Done", slaDuration := some 24, isInitial := false,
         isTerminal := true },
       { id := 5, name := "Alt", slaDuration := none, isInitial := false,
         isTerminal := true }]
    transitions :=
      [{ id := 2, name := "finish", sourceID := 0, targetID := 1,
         requirements := [], actions := [], permission := "p" },
       { id := 3, name := "divert", sourceID := 0, targetID := 5,
         requirements := [], actions := [], permission := "p" }]
    version := 1
    published := true }

/-- A sample incident sitting in the initial state of `sampleDef`. -/
def sampleIncident : Incident :=
  { id := 100
    incidentType := "incident"
    definitionID := 7
    currentState := 0
    stateEnteredAt := 2
    fields := []
    attachments := 0
    department := "d"
    revision := 0
    deleted := false }

/-- A sample actor holding permission `p`. -/
def sampleActor : Actor :=
  { id := 9, permissions := ["p"], roles := [] }

/-- A sample engine store holding `sampleIncident`. -/
def sampleState : EngineState :=
  { incidents := [sampleIncident], revisions := [] }

/-! ## Theorems -/

/-- C10: for `total ≥ 0` and `limit > 0`, `PaginatedSuccessResponse`'s
`TotalPages` equals `⌈total / limit⌉`, the integer division rounded up. -/
theorem totalPages_is_ceil (total limit : Nat) (h : 0 < limit) :
    totalPages total limit = (total + limit - 1) / limit := by
  have hb : total + limit - 1 = total + (limit - 1) := by omega
  have hlt : limit - 1 < limit := by omega
  simp only [totalPages]
  rw [hb, Nat.add_div h, Nat.div_eq_of_lt hlt, Nat.mod_eq_of_lt hlt]
  have hm : total % limit < limit := Nat.mod_lt _ h
  split_ifs <;> omega

/-- Witness for C10 at `total = 10`, `limit = 3`. -/
theorem totalPages_is_ceil_witness :
    0 < 3 ∧ totalPages 10 3 = (10 + 3 - 1) / 3 :=
  ⟨by decide, totalPages_is_ceil 10 3 (by decide)⟩

/-- C9: a system lookup category is protected — `UpdateCategory` leaves its
stored `Code` and `IsActive` (and identity and system flag) unchanged, and
`DeleteCategory` answers HTTP 403 deleting neither the category nor its
values. -/
theorem system_category_protected :
    (∀ (req : LookupCategoryUpdateRequest) (c : LookupCategory),
        c.isSystem = true →
        (applyCategoryUpdate req c).code = c.code ∧
        (applyCategoryUpdate req c).isActive = c.isActive ∧
        (applyCategoryUpdate req c).id = c.id ∧
        (applyCategoryUpdate req c).isSystem = c.isSystem) ∧
    (∀ (cats : List LookupCategory) (vals : List LookupValue) (id : Nat)
        (cat : LookupCategory),
        cats.find? (fun c => c.id = id) = some cat → cat.isSystem = true →
        deleteCategory cats vals id = (cats, vals, 403)) := by
  constructor
  · intro req c hsys
    simp [applyCategoryUpdate, hsys]
  · intro cats vals id cat hfind hsys
    unfold deleteCategory
    rw [hfind]
    simp [hsys]

/-- A sample system category. -/
def sampleSystemCategory : LookupCategory :=
  { id := 4, code := "PRIORITY", name := "Priority", nameAr := "",
    description := "", isSystem := true, isActive := true,
    addToIncidentForm := false }

/-- A sample category-update request trying to change code and activity. -/
def sampleCategoryUpdateRequest : LookupCategoryUpdateRequest :=
  { code := "other", name := "Other", nameAr := "", description := "",
    isActive := some false, addToIncidentForm := none }

/-- Witness for C9 on `sampleSystemCategory`. -/
theorem system_category_protected_witness :
    (applyCategoryUpdate sampleCategoryUpdateRequest sampleSystemCategory).code =
        sampleSystemCategory.code ∧
    (applyCategoryUpdate sampleCategoryUpdateRequest sampleSystemCategory).isActive =
        sampleSystemCategory.isActive ∧
    deleteCategory [sampleSystemCategory] [] 4 = ([sampleSystemCategory], [], 403) :=
  ⟨(system_category_protected.1 sampleCategoryUpdateRequest sampleSystemCategory rfl).1,
   (system_category_protected.1 sampleCategoryUpdateRequest sampleSystemCategory rfl).2.1,
   system_category_protected.2 [sampleSystemCategory] [] 4 sampleSystemCategory
     (by decide) rfl⟩

/-- C5: requirement evaluation evaluates every requirement of the list (no
short-circuit): the unmet reasons are exactly the reasons of all the
unsatisfied requirements, the transition may proceed (empty unmet list) iff
every requirement is satisfied, and a requirement of unknown kind evaluates
to unsatisfied with reason "unsupported requirement". -/
theorem requirement_evaluation_spec :
    (∀ (rs : List Requirement) (inc : Incident) (a : Actor),
        unmetReasons rs inc a =
          (rs.filter fun r => !(evaluateRequirement r inc a).1).map
            (fun r => (evaluateRequirement r inc a).2)) ∧
    (∀ (rs : List Requirement) (inc : Incident) (a : Actor),
        unmetReasons rs inc a = [] ↔
          ∀ r ∈ rs, (evaluateRequirement r inc a).1 = true) ∧
    (∀ (r : Requirement) (inc : Incident) (a : Actor),
        r.kind ≠ "field_non_empty" → r.kind ≠ "actor_has_role" →
        r.kind ≠ "attachment_count_ge" →
        evaluateRequirement r inc a = (false, "unsupported requirement")) := by
  refine ⟨fun rs inc a => ?_, fun rs inc a => ?_, fun r inc a h1 h2 h3 => ?_⟩
  · induction rs with
    | nil => rfl
    | cons r rest ih =>
      by_cases h : (evaluateRequirement r inc a).1 = true <;>
        simp [unmetReasons, List.filterMap_cons, List.filter_cons, h] at ih ⊢ <;>
        simpa [unmetReasons] using ih
  · induction rs with
    | nil => simp [unmetReasons]
    | cons r rest ih =>
      by_cases h : (evaluateRequirement r inc a).1 = true <;>
        simp [unmetReasons, List.filterMap_cons, h] at ih ⊢
  · simp [evaluateRequirement, h1, h2, h3]

/-- A sample requirement of a kind the evaluator does not know. -/
def sampleUnknownRequirement : Requirement :=
  { kind := "mystery", field := "", param := "", threshold := 0 }

/-- Witness for C5: the unknown-kind clause at a concrete requirement, and
the completeness clause on a concrete list. -/
theorem requirement_evaluation_spec_witness :
    evaluateRequirement sampleUnknownRequirement sampleIncident sampleActor =
      (false, "unsupported requirement") ∧
    (unmetReasons [sampleUnknownRequirement] sampleIncident sampleActor = [] ↔
      ∀ r ∈ [sampleUnknownRequirement],
        (evaluateRequirement r sampleIncident sampleActor).1 = true) :=
  ⟨requirement_evaluation_spec.2.2 sampleUnknownRequirement sampleIncident
      sampleActor (by decide) (by decide) (by decide),
   requirement_evaluation_spec.2.1 [sampleUnknownRequirement] sampleIncident
      sampleActor⟩

/-- The SLA classification as a function of `now`, the entry timestamp and
the optional SLA duration only. -/
def slaOf (now entered : Nat) (duration : Option Nat) : SLAStatus :=
  let elapsed := now - entered
  match duration with
  | none => ⟨.onTrack, elapsed, none⟩
  | some dur =>
    if dur < elapsed then ⟨.breached, elapsed, some 0⟩
    else if dur * 4 < elapsed * 5 then ⟨.atRisk, elapsed, some (dur - elapsed)⟩
    else ⟨.onTrack, elapsed, some (dur - elapsed)⟩

/-- The function `slaStatus` factors through `now`, `state_entered_at` and the current
state's SLA duration. -/
theorem slaStatus_eq_slaOf (now : Nat) (inc : Incident)
    (d : WorkflowDefinition) :
    slaStatus now inc d = slaOf now inc.stateEnteredAt (currentSLADuration d inc) := by
  unfold slaStatus slaOf currentSLADuration
  cases d.states.find? (fun s => s.id = inc.currentState) with
  | none => rfl
  | some s => cases s.slaDuration <;> rfl

/-- C6: SLA status is a deterministic pure function of `now`,
`state_entered_at` and the current state's SLA duration (so two reads with
the same `now` and no intervening transition agree), and a null duration
always yields `OnTrack`. -/
theorem slaStatus_pure :
    (∀ (now : Nat) (inc1 : Incident) (d1 : WorkflowDefinition)
        (inc2 : Incident) (d2 : WorkflowDefinition),
        inc1.stateEnteredAt = inc2.stateEnteredAt →
        currentSLADuration d1 inc1 = currentSLADuration d2 inc2 →
        slaStatus now inc1 d1 = slaStatus now inc2 d2) ∧
    (∀ (now : Nat) (inc : Incident) (d : WorkflowDefinition),
        currentSLADuration d inc = none →
        slaStatus now inc d = ⟨.onTrack, now - inc.stateEnteredAt, none⟩) := by
  constructor
  · intro now inc1 d1 inc2 d2 he hd
    rw [slaStatus_eq_slaOf, slaStatus_eq_slaOf, he, hd]
  · intro now inc d hd
    rw [slaStatus_eq_slaOf, hd]
    rfl

/-- A second incident, in a different state of a different definition but
with the same entry timestamp and the same (absent) SLA duration as
`sampleIncident`. -/
def sampleIncident2 : Incident :=
  { id := 101
    incidentType := "incident"
    definitionID := 7
    currentState := 5
    stateEnteredAt := 2
    fields := []
    attachments := 1
    department := "e"
    revision := 3
    deleted := false }

/-- Witness for C6: two different incidents with equal entry timestamps and
equal (null) SLA durations get the same status, which is `OnTrack`. -/
theorem slaStatus_pure_witness :
    slaStatus 30 sampleIncident sampleDef = slaStatus 30 sampleIncident2 sampleDef ∧
    slaStatus 30 sampleIncident2 sampleDef =
      ⟨.onTrack, 30 - sampleIncident2.stateEnteredAt, none⟩ :=
  ⟨slaStatus_pure.1 30 sampleIncident sampleDef sampleIncident2 sampleDef
      (by decide) (by decide),
   slaStatus_pure.2 30 sampleIncident2 sampleDef (by decide)⟩

/-- A failing commit returns the store unchanged. -/
theorem commitTransition_error_frame (st : EngineState)
    (intent : TransitionIntent) (st2 : EngineState) (e : EngineError)
    (h : commitTransition st intent = (st2, .error e)) : st2 = st := by
  unfold commitTransition at h
  split at h
  · injection h with h1 h2
    exact h1.symm
  · split at h
    · injection h with h1 h2
      cases h2
    · injection h with h1 h2
      exact h1.symm

/-- C1: transition atomicity — whenever `requestTransition` fails (with any
error, in particular an `ActionError` raised after action execution has
begun and before the step-6 commit completes), the persisted store is
untouched: no incident (current state, entry timestamp, field bag) changes
and no `RevisionEntry` is appended. -/
theorem requestTransition_atomic :
    ∀ (defs : List WorkflowDefinition) (st : EngineState)
      (incidentID transitionID : Nat) (actor : Actor)
      (payload : List (String × String)) (now : Nat) (e : EngineError),
      (requestTransition defs st incidentID transitionID actor payload now).2 =
        .error e →
      (requestTransition defs st incidentID transitionID actor payload now).1 =
        st := by
  intro defs st iid tid a p now e h
  have key : ∀ pr : EngineState × Except EngineError Incident,
      requestTransition defs st iid tid a p now = pr →
      pr.2 = Except.error e → pr.1 = st := by
    intro pr hq h2
    obtain ⟨st2, r⟩ := pr
    change r = Except.error e at h2
    change st2 = st
    subst h2
    unfold requestTransition at hq
    split at hq
    · injection hq with h1 h2
      exact h1.symm
    · exact commitTransition_error_frame _ _ _ _ hq
  exact key _ rfl h

/-- A workflow like `sampleDef` but whose only transition carries an action
of an unsupported kind, so that action execution fails. -/
def sampleDefBadAction : WorkflowDefinition :=
  { id := 8
    incidentType := "incident"
    states :=
      [{ id := 0, name := "New", slaDuration := none, isInitial := true,
         isTerminal := false },
       { id := 1, name := "Done", slaDuration := some 24, isInitial := false,
         isTerminal := true }]
    transitions :=
      [{ id := 2, name := "finish", sourceID := 0, targetID := 1,
         requirements := [],
         actions := [{ kind := "explode", field := "", value := "" }],
         permission := "p" }]
    version := 1
    published := true }

/-- An incident bound to `sampleDefBadAction`. -/
def sampleIncidentBad : Incident :=
  { sampleIncident with definitionID := 8 }

/-- Store holding `sampleIncidentBad`. -/
def sampleStateBad : EngineState :=
  { incidents := [sampleIncidentBad], revisions := [] }

/-- Witness for C1: a transition whose action fails leaves the store
exactly as it was. -/
theorem requestTransition_atomic_witness :
    (requestTransition [sampleDefBadAction] sampleStateBad 100 2 sampleActor
        [] 5).2 = .error (.actionError "unsupported action") ∧
    (requestTransition [sampleDefBadAction] sampleStateBad 100 2 sampleActor
        [] 5).1 = sampleStateBad :=
  ⟨rfl,
   requestTransition_atomic [sampleDefBadAction] sampleStateBad 100 2
     sampleActor [] 5 (.actionError "unsupported action") rfl⟩

/-- C2: a transition request whose resolved transition does not exist in
the bound definition, or whose source state differs from the incident's
current state, fails with `InvalidTransitionError` and mutates nothing. -/
theorem invalid_transition_rejected :
    ∀ (defs : List WorkflowDefinition) (st : EngineState)
      (incidentID transitionID : Nat) (actor : Actor)
      (payload : List (String × String)) (now : Nat)
      (inc : Incident) (wd : WorkflowDefinition),
      st.incidents.find? (fun i => i.id = incidentID && !i.deleted) = some inc →
      defs.find? (fun d => d.id = inc.definitionID && d.published) = some wd →
      (wd.transitions.find? (fun t => t.id = transitionID) = none ∨
        ∃ t, wd.transitions.find? (fun t => t.id = transitionID) = some t ∧
          t.sourceID ≠ inc.currentState) →
      requestTransition defs st incidentID transitionID actor payload now =
        (st, .error .invalidTransition) := by
  intro defs st iid tid a p now inc wd hinc hdef hbad
  unfold requestTransition prepareTransition
  rcases hbad with hn | ⟨t, ht, hs⟩
  · simp only [hinc, hdef, hn]
  · simp only [hinc, hdef, ht, if_pos hs]

/-- Witness for C2: requesting a transition id absent from the definition
fails with `InvalidTransitionError` and leaves the store unchanged. -/
theorem invalid_transition_rejected_witness :
    requestTransition [sampleDef] sampleState 100 999 sampleActor [] 5 =
      (sampleState, .error .invalidTransition) :=
  invalid_transition_rejected [sampleDef] sampleState 100 999 sampleActor [] 5
    sampleIncident sampleDef (by decide) (by decide) (.inl (by decide))

/-- C7: for a draft, `publish` fails with `ValidationError` exactly when
the draft violates the definition invariants (`validDefinition`: exactly
one initial state, a terminal state, transitions referencing states of the
definition, no transition targeting the initial state, all states
reachable), and otherwise yields a published definition satisfying all of
them. -/
theorem publish_validation :
    ∀ d : WorkflowDefinition, d.published = false →
      ((publish d = .error .validationError ↔ validDefinition d = false) ∧
        ∀ p, publish d = .ok p →
          p.published = true ∧ validDefinition p = true ∧
          exactlyOneInitial p = true ∧ hasTerminal p = true ∧
          transitionsWellFormed p = true ∧ noReentryToInitial p = true ∧
          allReachable p = true) := by
  intro d hd
  unfold publish
  rw [hd]
  simp only [Bool.false_eq_true, if_false]
  by_cases hv : validDefinition d = true
  · rw [if_pos hv]
    refine ⟨?_, ?_⟩
    · constructor
      · intro h
        cases h
      · intro h
        exact absurd (hv.symm.trans h) (by simp)
    intro p hp
    have hpd : p = { d with published := true } := by
      cases hp
      rfl
    subst hpd
    have hval : validDefinition { d with published := true } =
        validDefinition d := rfl
    have hv2 := hval.trans hv
    have hsplit := hv2
    unfold validDefinition at hsplit
    simp only [Bool.and_eq_true] at hsplit
    exact ⟨rfl, hv2, hsplit.1.1.1.1, hsplit.1.1.1.2, hsplit.1.1.2,
      hsplit.1.2, hsplit.2⟩
  · rw [if_neg hv]
    have hv2 : validDefinition d = false := by simpa using hv
    exact ⟨by simp [hv2], fun p hp => by cases hp⟩

/-- A sample draft: `sampleDef` before publication. -/
def sampleDraft : WorkflowDefinition :=
  { sampleDef with published := false }

/-- Witness for C7: `sampleDraft` satisfies the invariants and publishing it
succeeds; the error characterisation instantiated at it. -/
theorem publish_validation_witness :
    (publish sampleDraft = .error .validationError ↔
      validDefinition sampleDraft = false) ∧
    validDefinition sampleDraft = true :=
  ⟨(publish_validation sampleDraft rfl).1, by decide⟩

/-- C4: publishing a duplicate yields a definition with the same number of
states and transitions as the source, the same name sequence and SLA
durations on name-corresponding states, requirement and action lists copied
by value, and state/transition identities disjoint from every identity of
the source (given identifiers fresh beyond all of the source's). -/
theorem duplicate_publish_spec :
    ∀ (d : WorkflowDefinition) (newDefID freshBase : Nat)
      (p : WorkflowDefinition),
      publish (duplicate d newDefID freshBase) = .ok p →
      (∀ s ∈ d.states, s.id < freshBase) →
      (∀ t ∈ d.transitions, t.id < freshBase) →
      p.states.length = d.states.length ∧
      p.transitions.length = d.transitions.length ∧
      p.states.map WfState.name = d.states.map WfState.name ∧
      p.states.map WfState.slaDuration = d.states.map WfState.slaDuration ∧
      (∀ s2 ∈ p.states, ∀ s ∈ d.states, s2.id ≠ s.id) ∧
      (∀ t2 ∈ p.transitions, ∀ t ∈ d.transitions, t2.id ≠ t.id) ∧
      p.transitions.map Transition.requirements =
        d.transitions.map Transition.requirements ∧
      p.transitions.map Transition.actions =
        d.transitions.map Transition.actions := by
  intro d newDefID freshBase p hpub hs ht
  have hp : p = { duplicate d newDefID freshBase with published := true } := by
    unfold publish at hpub
    split at hpub
    · cases hpub
    · split at hpub
      · cases hpub
        rfl
      · cases hpub
  subst hp
  refine ⟨?_, ?_, ?_, ?_, ?_, ?_, ?_, ?_⟩
  · show (d.states.enum.map fun pr =>
        ({ pr.2 with id := freshBase + pr.1 } : WfState)).length = _
    simp [List.enum_length]
  · show (d.transitions.enum.map _).length = _
    simp [List.enum_length]
  · show (d.states.enum.map fun pr =>
        ({ pr.2 with id := freshBase + pr.1 } : WfState)).map WfState.name = _
    rw [List.map_map]
    calc d.states.enum.map
          (WfState.name ∘ fun pr => ({ pr.2 with id := freshBase + pr.1 } : WfState))
        = (d.states.enum.map Prod.snd).map WfState.name := by
          rw [List.map_map]
          exact rfl
      _ = d.states.map WfState.name := by rw [List.enum_map_snd]
  · show (d.states.enum.map fun pr =>
        ({ pr.2 with id := freshBase + pr.1 } : WfState)).map WfState.slaDuration = _
    rw [List.map_map]
    calc d.states.enum.map
          (WfState.slaDuration ∘ fun pr => ({ pr.2 with id := freshBase + pr.1 } : WfState))
        = (d.states.enum.map Prod.snd).map WfState.slaDuration := by
          rw [List.map_map]
          exact rfl
      _ = d.states.map WfState.slaDuration := by rw [List.enum_map_snd]
  · intro s2 hs2 s hsm
    rw [show ({ duplicate d newDefID freshBase with published := true} :
        WorkflowDefinition).states = d.states.enum.map
          (fun pr => ({ pr.2 with id := freshBase + pr.1 } : WfState)) from rfl,
      List.mem_map] at hs2
    obtain ⟨pr, hpr, hval⟩ := hs2
    have h2 := hs s hsm
    have h3 : s2.id = freshBase + pr.1 := by rw [← hval]
    omega
  · intro t2 ht2 t htm
    rw [show ({ duplicate d newDefID freshBase with published := true} :
        WorkflowDefinition).transitions = d.transitions.enum.map
          (fun pr => ({ pr.2 with
            id := freshBase + d.states.length + pr.1
            sourceID := match d.states.findIdx? (fun s => s.id = pr.2.sourceID) with
              | some i => freshBase + i
              | none => pr.2.sourceID
            targetID := match d.states.findIdx? (fun s => s.id = pr.2.targetID) with
              | some i => freshBase + i
              | none => pr.2.targetID } : Transition)) from rfl,
      List.mem_map] at ht2
    obtain ⟨pr, hpr, hval⟩ := ht2
    have h2 := ht t htm
    have h3 : t2.id = freshBase + d.states.length + pr.1 := by rw [← hval]
    omega
  · show (d.transitions.enum.map _).map Transition.requirements = _
    rw [List.map_map]
    calc d.transitions.enum.map
          (Transition.requirements ∘ fun pr => ({ pr.2 with
            id := freshBase + d.states.length + pr.1
            sourceID := match d.states.findIdx? (fun s => s.id = pr.2.sourceID) with
              | some i => freshBase + i
              | none => pr.2.sourceID
            targetID := match d.states.findIdx? (fun s => s.id = pr.2.targetID) with
              | some i => freshBase + i
              | none => pr.2.targetID } : Transition))
        = (d.transitions.enum.map Prod.snd).map Transition.requirements := by
          rw [List.map_map]
          exact rfl
      _ = d.transitions.map Transition.requirements := by rw [List.enum_map_snd]
  · show (d.transitions.enum.map _).map Transition.actions = _
    rw [List.map_map]
    calc d.transitions.enum.map
          (Transition.actions ∘ fun pr => ({ pr.2 with
            id := freshBase + d.states.length + pr.1
            sourceID := match d.states.findIdx? (fun s => s.id = pr.2.sourceID) with
              | some i => freshBase + i
              | none => pr.2.sourceID
            targetID := match d.states.findIdx? (fun s => s.id = pr.2.targetID) with
              | some i => freshBase + i
              | none => pr.2.targetID } : Transition))
        = (d.transitions.enum.map Prod.snd).map Transition.actions := by
          rw [List.map_map]
          exact rfl
      _ = d.transitions.map Transition.actions := by rw [List.enum_map_snd]

/-- The duplicate of `sampleDef` with fresh identifiers from 100. -/
def sampleDup : WorkflowDefinition := duplicate sampleDef 50 100

/-- The definition `sampleDup` once published. -/
def samplePublishedDup : WorkflowDefinition := { sampleDup with published := true }

/-- Witness for C4: publishing the duplicate of `sampleDef` succeeds and
preserves counts and SLA durations. -/
theorem duplicate_publish_spec_witness :
    publish sampleDup = .ok samplePublishedDup ∧
    samplePublishedDup.states.length = sampleDef.states.length ∧
    samplePublishedDup.states.map WfState.slaDuration =
      sampleDef.states.map WfState.slaDuration := by
  have h := duplicate_publish_spec sampleDef 50 100 samplePublishedDup rfl
    (by decide) (by decide)
  exact ⟨rfl, h.1, h.2.2.2.1⟩

/-- A successful preparation targets the live incident of its snapshot and
bumps the revision counter by exactly one. -/
theorem prepareTransition_ok_facts
    (defs : List WorkflowDefinition) (st : EngineState)
    (iid tid : Nat) (a : Actor) (p : List (String × String)) (now : Nat)
    (intent : TransitionIntent)
    (h : prepareTransition defs st iid tid a p now = .ok intent) :
    ∃ inc, st.incidents.find? (fun i => i.id = iid && !i.deleted) = some inc ∧
      intent.incidentID = inc.id ∧ inc.id = iid ∧ inc.deleted = false ∧
      intent.expectedRevision = inc.revision ∧
      intent.newIncident.id = inc.id ∧
      intent.newIncident.deleted = inc.deleted ∧
      intent.newIncident.revision = inc.revision + 1 ∧
      intent.entry.incidentID = inc.id := by
  unfold prepareTransition at h
  split at h
  · cases h
  next inc hinc =>
    have hpred := List.find?_some hinc
    simp only [Bool.and_eq_true, decide_eq_true_eq, Bool.not_eq_true'] at hpred
    split at h
    · cases h
    next wd hdef =>
      split at h
      · cases h
      next t htr =>
        split at h
        · cases h
        · split at h
          · cases h
          · split at h
            · cases h
            · split at h
              · cases h
              · split at h
                · cases h
                next deltas hact =>
                  injection h with h2
                  subst h2
                  exact ⟨inc, hinc, rfl, hpred.1, hpred.2, rfl, rfl, rfl,
                    rfl, rfl⟩

/-- After replacing the live row with primary key `idv` by `n` (itself live
with key `idv`), looking the live row up finds `n`. -/
theorem find?_replace_live (l : List Incident) (idv : Nat) (v n : Incident)
    (hf : l.find? (fun i => i.id = idv && !i.deleted) = some v)
    (hn : n.id = idv) (hd : n.deleted = false) :
    (l.map fun i => if i.id = idv then n else i).find?
      (fun i => i.id = idv && !i.deleted) = some n := by
  induction l with
  | nil => cases hf
  | cons a rest ih =>
    by_cases ha : a.id = idv
    · have : (a :: rest).map (fun i => if i.id = idv then n else i) =
          n :: rest.map (fun i => if i.id = idv then n else i) := by
        simp [ha]
      rw [this]
      apply List.find?_cons_of_pos
      simp [hn, hd]
    · have hmap : (a :: rest).map (fun i => if i.id = idv then n else i) =
          a :: rest.map (fun i => if i.id = idv then n else i) := by
        simp [ha]
      rw [hmap]
      rw [List.find?_cons_of_neg _ (by simp [ha])]
      apply ih
      rwa [List.find?_cons_of_neg _ (by simp [ha])] at hf

/-- C3: two transition requests prepared concurrently against the same
snapshot of the same incident are serialized by the commit: whichever
commits first succeeds and appends exactly one `RevisionEntry`; the other
commit fails with `ConflictError` and changes nothing, so the two
transitions are never merged. -/
theorem concurrent_transitions_serialized :
    ∀ (defs : List WorkflowDefinition) (st : EngineState) (iid tid1 tid2 : Nat)
      (a1 a2 : Actor) (p1 p2 : List (String × String)) (now1 now2 : Nat)
      (i1 i2 : TransitionIntent),
      tid1 ≠ tid2 →
      prepareTransition defs st iid tid1 a1 p1 now1 = .ok i1 →
      prepareTransition defs st iid tid2 a2 p2 now2 = .ok i2 →
      (commitTransition st i1).2 = .ok i1.newIncident ∧
      (commitTransition st i1).1.revisions = st.revisions ++ [i1.entry] ∧
      commitTransition (commitTransition st i1).1 i2 =
        ((commitTransition st i1).1, .error .conflict) := by
  intro defs st iid tid1 tid2 a1 a2 p1 p2 now1 now2 i1 i2 htid h1 h2
  obtain ⟨inc, hinc, hiid1, hidv, hdel, hrev1, hnid1, hndel1, hnrev1, _⟩ :=
    prepareTransition_ok_facts defs st iid tid1 a1 p1 now1 i1 h1
  obtain ⟨inc2, hinc2, hiid2, _, _, hrev2, _, _, _, _⟩ :=
    prepareTransition_ok_facts defs st iid tid2 a2 p2 now2 i2 h2
  have hinceq : inc = inc2 := by
    rw [hinc] at hinc2
    injection hinc2 with h3
  subst hinceq
  have hfind1 : st.incidents.find?
      (fun i => i.id = i1.incidentID && !i.deleted) = some inc := by
    rw [hiid1, hidv]
    exact hinc
  have hcommit1 : commitTransition st i1 =
      ({ incidents := st.incidents.map fun i =>
           if i.id = i1.incidentID then i1.newIncident else i
         revisions := st.revisions ++ [i1.entry] },
       .ok i1.newIncident) := by
    unfold commitTransition
    simp only [hfind1]
    rw [if_pos hrev1.symm]
  have hfind2 : (st.incidents.map fun i =>
      if i.id = i1.incidentID then i1.newIncident else i).find?
      (fun i => i.id = i2.incidentID && !i.deleted) = some i1.newIncident := by
    have hbase := find?_replace_live st.incidents iid inc i1.newIncident
      hinc (hnid1.trans hidv) (hndel1.trans hdel)
    rw [hiid1, hidv, hiid2, hidv]
    exact hbase
  have hc2 : commitTransition
      ({ incidents := st.incidents.map fun i =>
           if i.id = i1.incidentID then i1.newIncident else i
         revisions := st.revisions ++ [i1.entry] } : EngineState) i2 =
      ({ incidents := st.incidents.map fun i =>
           if i.id = i1.incidentID then i1.newIncident else i
         revisions := st.revisions ++ [i1.entry] }, .error .conflict) := by
    unfold commitTransition
    simp only [hfind2]
    rw [if_neg (by rw [hnrev1, hrev2]; omega)]
  refine ⟨by rw [hcommit1], by rw [hcommit1], ?_⟩
  rw [hcommit1]
  exact hc2

/-- Intent prepared for transition 2 of `sampleDef` on `sampleIncident`. -/
def sampleIntent1 : TransitionIntent :=
  { incidentID := 100
    expectedRevision := 0
    newIncident :=
      { sampleIncident with
        currentState := 1
        stateEnteredAt := 5
        revision := 1 }
    entry :=
      { incidentID := 100
        fromState := some 0
        toState := 1
        actorID := 9
        timestamp := 5
        deltas := [] } }

/-- Intent prepared for transition 3 of `sampleDef` on `sampleIncident`. -/
def sampleIntent2 : TransitionIntent :=
  { incidentID := 100
    expectedRevision := 0
    newIncident :=
      { sampleIncident with
        currentState := 5
        stateEnteredAt := 6
        revision := 1 }
    entry :=
      { incidentID := 100
        fromState := some 0
        toState := 5
        actorID := 9
        timestamp := 6
        deltas := [] } }

/-- Witness for C3: two concrete concurrent requests (transitions 2 and 3)
prepared on the same snapshot; the first commit succeeds with one new
revision entry, the second fails with `ConflictError`. -/
theorem concurrent_transitions_serialized_witness :
    (commitTransition sampleState sampleIntent1).2 = .ok sampleIntent1.newIncident ∧
    (commitTransition sampleState sampleIntent1).1.revisions =
      sampleState.revisions ++ [sampleIntent1.entry] ∧
    commitTransition (commitTransition sampleState sampleIntent1).1 sampleIntent2 =
      ((commitTransition sampleState sampleIntent1).1, .error .conflict) :=
  concurrent_transitions_serialized [sampleDef] sampleState 100 2 3
    sampleActor sampleActor [] [] 5 6 sampleIntent1 sampleIntent2
    (by decide) rfl rfl

/-- Projections of `applyValueUpdate`: identity is never touched. -/
theorem applyValueUpdate_id (req : LookupValueUpdateRequest)
    (v : LookupValue) : (applyValueUpdate req v).id = v.id := rfl

/-- Projections of `applyValueUpdate`: the category is never touched. -/
theorem applyValueUpdate_categoryID (req : LookupValueUpdateRequest)
    (v : LookupValue) : (applyValueUpdate req v).categoryID = v.categoryID :=
  rfl

/-- Projections of `applyValueUpdate`: the default flag becomes the request
value when present. -/
theorem applyValueUpdate_isDefault (req : LookupValueUpdateRequest)
    (v : LookupValue) :
    (applyValueUpdate req v).isDefault = req.isDefault.getD v.isDefault := rfl

/-- Clearing a category's defaults zeroes its default count and leaves every
other category's count alone. -/
theorem countP_clear (catID c : Nat) (store : List LookupValue) :
    (clearDefaultForCategory catID store).countP (isDefaultIn c) =
      if c = catID then 0 else store.countP (isDefaultIn c) := by
  induction store with
  | nil => simp [clearDefaultForCategory]
  | cons a rest ih =>
    simp only [clearDefaultForCategory, List.map_cons, List.countP_cons]
      at ih ⊢
    by_cases hv : a.categoryID = catID
    · rw [if_pos hv]
      have h1 : isDefaultIn c ({ a with isDefault := false } : LookupValue) =
          false := by simp [isDefaultIn]
      rw [h1, ih]
      by_cases hc : c = catID
      · rw [if_pos hc, if_pos hc]
        simp
      · rw [if_neg hc, if_neg hc]
        have h2 : isDefaultIn c a = false := by
          unfold isDefaultIn
          rw [hv]
          simp [show catID ≠ c from fun h => hc h.symm]
        rw [h2]
    · rw [if_neg hv, ih]
      by_cases hc : c = catID
      · rw [if_pos hc, if_pos hc]
        have h2 : isDefaultIn c a = false := by
          unfold isDefaultIn
          rw [hc]
          simp [hv]
        rw [h2]
        simp
      · rw [if_neg hc, if_neg hc]

/-- Clearing defaults does not change the identifiers. -/
theorem map_id_clear (catID : Nat) (store : List LookupValue) :
    (clearDefaultForCategory catID store).map LookupValue.id =
      store.map LookupValue.id := by
  unfold clearDefaultForCategory
  rw [List.map_map]
  apply List.map_congr_left
  intro w _
  by_cases h : w.categoryID = catID <;> simp [Function.comp, h]

/-- Replacing a row by primary key does not change the identifiers when the
replacement keeps the key. -/
theorem map_id_replace (l : List LookupValue) (idv : Nat) (n : LookupValue)
    (hn : n.id = idv) :
    (l.map fun w => if w.id = idv then n else w).map LookupValue.id =
      l.map LookupValue.id := by
  rw [List.map_map]
  apply List.map_congr_left
  intro w _
  by_cases h : w.id = idv <;> simp [Function.comp, h, hn]

/-- Exact default count after replacing the unique row with key `idv` by
`n`: the old row's contribution is swapped for the new row's. -/
theorem countP_replace (l : List LookupValue) (idv : Nat) (v n : LookupValue)
    (c : Nat) (hmem : v ∈ l) (hid : v.id = idv)
    (hnd : (l.map LookupValue.id).Nodup) :
    (l.map fun w => if w.id = idv then n else w).countP (isDefaultIn c) =
      l.countP (isDefaultIn c) - (if isDefaultIn c v then 1 else 0) +
        (if isDefaultIn c n then 1 else 0) := by
  induction l with
  | nil => cases hmem
  | cons a rest ih =>
    rw [List.map_cons] at hnd
    have hnd2 := List.nodup_cons.mp hnd
    rcases List.mem_cons.mp hmem with heq | hmem2
    · subst heq
      have hrest : ∀ w ∈ rest, w.id ≠ idv := by
        intro w hw hwid
        exact hnd2.1 (List.mem_map.mpr ⟨w, hw, hwid.trans hid.symm⟩)
      have hmap : rest.map (fun w => if w.id = idv then n else w) = rest := by
        conv_rhs => rw [← List.map_id rest]
        apply List.map_congr_left
        intro w hw
        simp [hrest w hw]
      rw [List.map_cons, List.countP_cons, List.countP_cons, if_pos hid, hmap]
      by_cases h1 : isDefaultIn c v = true <;>
        by_cases h2 : isDefaultIn c n = true <;>
        simp [h1, h2]
    · have hv1 : idv ∈ rest.map LookupValue.id :=
        List.mem_map.mpr ⟨v, hmem2, hid⟩
      have hane : a.id ≠ idv := by
        intro ha
        exact hnd2.1 (by rw [ha]; exact hv1)
      rw [List.map_cons, List.countP_cons, List.countP_cons, if_neg hane]
      rw [ih hmem2 hnd2.2]
      have hvle : isDefaultIn c v = true → 1 ≤ rest.countP (isDefaultIn c) :=
        fun hdef => List.countP_pos_iff.mpr ⟨v, hmem2, hdef⟩
      by_cases h1 : isDefaultIn c v = true
      · have h4 := hvle h1
        by_cases h2 : isDefaultIn c n = true <;>
          by_cases h3 : isDefaultIn c a = true <;>
          simp [h1, h2, h3] <;>
          omega
      · by_cases h2 : isDefaultIn c n = true <;>
          by_cases h3 : isDefaultIn c a = true <;>
          simp [h1, h2, h3]

/-- Projections of `newLookupValue`. -/
theorem newLookupValue_id (catID freshID : Nat)
    (req : LookupValueCreateRequest) :
    (newLookupValue catID freshID req).id = freshID := rfl

/-- Projections of `newLookupValue`. -/
theorem newLookupValue_categoryID (catID freshID : Nat)
    (req : LookupValueCreateRequest) :
    (newLookupValue catID freshID req).categoryID = catID := rfl

/-- Projections of `newLookupValue`. -/
theorem newLookupValue_isDefault (catID freshID : Nat)
    (req : LookupValueCreateRequest) :
    (newLookupValue catID freshID req).isDefault = req.isDefault := rfl

/-- The operation `CreateValue` preserves the at-most-one-default invariant and key
uniqueness. -/
theorem createValue_preserves (store : List LookupValue)
    (catID freshID : Nat) (req : LookupValueCreateRequest)
    (h1 : atMostOneDefault store) (h2 : uniqueIDs store) :
    atMostOneDefault (createValue store catID freshID req) ∧
      uniqueIDs (createValue store catID freshID req) := by
  have hcl1 : atMostOneDefault
      (if req.isDefault then clearDefaultForCategory catID store else store) := by
    intro c
    by_cases hd : req.isDefault = true
    · rw [if_pos hd, countP_clear]
      by_cases hc : c = catID
      · rw [if_pos hc]
        omega
      · rw [if_neg hc]
        exact h1 c
    · rw [if_neg hd]
      exact h1 c
  have hcl2 : uniqueIDs
      (if req.isDefault then clearDefaultForCategory catID store else store) := by
    unfold uniqueIDs
    by_cases hd : req.isDefault = true
    · rw [if_pos hd, map_id_clear]
      exact h2
    · rw [if_neg hd]
      exact h2
  unfold createValue insertValue
  by_cases hdup : (if req.isDefault then clearDefaultForCategory catID store
      else store).any
      (fun v => v.id = (newLookupValue catID freshID req).id) = true
  · rw [if_pos hdup]
    exact ⟨hcl1, hcl2⟩
  · rw [if_neg hdup]
    constructor
    · intro c
      rw [List.countP_append]
      have hone : List.countP (isDefaultIn c)
          [newLookupValue catID freshID req] =
          if isDefaultIn c (newLookupValue catID freshID req) then 1 else 0 := by
        simp [List.countP_cons]
      rw [hone]
      by_cases hd : req.isDefault = true
      · rw [if_pos hd, countP_clear]
        by_cases hc : c = catID
        · rw [if_pos hc]
          split <;> omega
        · rw [if_neg hc]
          have hv : isDefaultIn c (newLookupValue catID freshID req) = false := by
            unfold isDefaultIn
            rw [newLookupValue_categoryID]
            simp [show catID ≠ c from fun h => hc h.symm]
          rw [hv]
          have h3 := h1 c
          simp only [Bool.false_eq_true, if_false]
          omega
      · rw [if_neg hd]
        have hdf : req.isDefault = false := by simpa using hd
        have hv : isDefaultIn c (newLookupValue catID freshID req) = false := by
          unfold isDefaultIn
          rw [newLookupValue_isDefault, hdf]
          simp
        rw [hv]
        have h3 := h1 c
        simp only [Bool.false_eq_true, if_false]
        omega
    · have hnotin : (newLookupValue catID freshID req).id ∉
          (if req.isDefault then clearDefaultForCategory catID store
            else store).map LookupValue.id := by
        intro hmem
        rw [List.mem_map] at hmem
        obtain ⟨w, hw, hwid⟩ := hmem
        apply hdup
        rw [List.any_eq_true]
        exact ⟨w, hw, by simpa using hwid⟩
      unfold uniqueIDs
      rw [List.map_append]
      rw [List.nodup_append]
      exact ⟨hcl2, List.nodup_singleton _, by simpa using hnotin⟩

/-- The operation `UpdateValue` on a found value, written out. -/
theorem updateValue_eq_found (store : List LookupValue) (id : Nat)
    (req : LookupValueUpdateRequest) (v : LookupValue)
    (hfind : store.find? (fun v => v.id = id) = some v) :
    updateValue store id req =
      (if req.isDefault = some true ∧ v.isDefault = false then
        clearDefaultForCategory v.categoryID store else store).map
        (fun w => if w.id = id then applyValueUpdate req v else w) := by
  unfold updateValue
  rw [hfind]

/-- The operation `UpdateValue` preserves the at-most-one-default invariant and key
uniqueness. -/
theorem updateValue_preserves (store : List LookupValue) (id : Nat)
    (req : LookupValueUpdateRequest)
    (h1 : atMostOneDefault store) (h2 : uniqueIDs store) :
    atMostOneDefault (updateValue store id req) ∧
      uniqueIDs (updateValue store id req) := by
  cases hfind : store.find? (fun v => v.id = id) with
  | none =>
    have hsame : updateValue store id req = store := by
      unfold updateValue
      rw [hfind]
    rw [hsame]
    exact ⟨h1, h2⟩
  | some v =>
    rw [updateValue_eq_found store id req v hfind]
    have hvmem : v ∈ store := List.mem_of_find?_eq_some hfind
    have hvid : v.id = id := by simpa using List.find?_some hfind
    have hnid : (applyValueUpdate req v).id = id := by
      rw [applyValueUpdate_id]
      exact hvid
    by_cases hclear : req.isDefault = some true ∧ v.isDefault = false
    · rw [if_pos hclear]
      constructor
      · intro c
        have hcv : ({ v with isDefault := false } : LookupValue) ∈
            clearDefaultForCategory v.categoryID store := by
          have hm := List.mem_map_of_mem
            (fun w => if w.categoryID = v.categoryID then
              { w with isDefault := false } else w) hvmem
          simpa [clearDefaultForCategory] using hm
        have hnd2 : ((clearDefaultForCategory v.categoryID store).map
            LookupValue.id).Nodup := by
          rw [map_id_clear]
          exact h2
        rw [countP_replace _ id ({ v with isDefault := false })
          (applyValueUpdate req v) c hcv hvid hnd2]
        have hcvd : isDefaultIn c ({ v with isDefault := false } :
            LookupValue) = false := by simp [isDefaultIn]
        rw [hcvd, countP_clear]
        by_cases hc : c = v.categoryID
        · rw [if_pos hc]
          simp only [Bool.false_eq_true, if_false]
          split <;> omega
        · rw [if_neg hc]
          have hnc : isDefaultIn c (applyValueUpdate req v) = false := by
            unfold isDefaultIn
            rw [applyValueUpdate_categoryID]
            simp [show v.categoryID ≠ c from fun h => hc h.symm]
          rw [hnc]
          have h3 := h1 c
          simp only [Bool.false_eq_true, if_false]
          omega
      · unfold uniqueIDs
        rw [map_id_replace _ id _ hnid, map_id_clear]
        exact h2
    · rw [if_neg hclear]
      constructor
      · intro c
        rw [countP_replace store id v (applyValueUpdate req v) c hvmem hvid h2]
        have hkey : isDefaultIn c (applyValueUpdate req v) = true →
            isDefaultIn c v = true := by
          intro hn
          unfold isDefaultIn at hn ⊢
          rw [applyValueUpdate_categoryID, applyValueUpdate_isDefault] at hn
          rw [Bool.and_eq_true] at hn ⊢
          refine ⟨hn.1, ?_⟩
          by_cases hvd : v.isDefault = true
          · exact hvd
          · exfalso
            apply hclear
            have hvdf : v.isDefault = false := by simpa using hvd
            refine ⟨?_, hvdf⟩
            cases hreq : req.isDefault with
            | none =>
              rw [hreq] at hn
              simp at hn
              exact absurd hn.2 hvd
            | some b =>
              rw [hreq] at hn
              simp at hn
              rw [hn.2]
        have h3 := h1 c
        by_cases hv1 : isDefaultIn c v = true
        · by_cases hn1 : isDefaultIn c (applyValueUpdate req v) = true <;>
            simp [hv1, hn1] <;> omega
        · have hn1 : isDefaultIn c (applyValueUpdate req v) = false := by
            cases hx : isDefaultIn c (applyValueUpdate req v) with
            | false => rfl
            | true => exact absurd (hkey hx) hv1
          simp [hv1, hn1]
          omega
      · unfold uniqueIDs
        rw [map_id_replace _ id _ hnid]
        exact h2

/-- The operation `DeleteValue` preserves the at-most-one-default invariant and key
uniqueness. -/
theorem deleteValue_preserves (store : List LookupValue) (id : Nat)
    (h1 : atMostOneDefault store) (h2 : uniqueIDs store) :
    atMostOneDefault (deleteValue store id) ∧
      uniqueIDs (deleteValue store id) := by
  constructor
  · intro c
    calc (deleteValue store id).countP (isDefaultIn c)
        ≤ store.countP (isDefaultIn c) :=
          (List.filter_sublist store).countP_le _
      _ ≤ 1 := h1 c
  · exact h2.sublist ((List.filter_sublist store).map LookupValue.id)

/-- Every lookup-value handler call preserves the invariant. -/
theorem applyLookupOp_preserves (store : List LookupValue) (op : LookupOp)
    (h1 : atMostOneDefault store) (h2 : uniqueIDs store) :
    atMostOneDefault (applyLookupOp store op) ∧
      uniqueIDs (applyLookupOp store op) := by
  cases op with
  | create catID freshID req => exact createValue_preserves store catID freshID req h1 h2
  | update id req => exact updateValue_preserves store id req h1 h2
  | delete id => exact deleteValue_preserves store id h1 h2

/-- Sequences of lookup-value handler calls preserve the invariant. -/
theorem applyLookupOps_preserves :
    ∀ (ops : List LookupOp) (store : List LookupValue),
      atMostOneDefault store → uniqueIDs store →
      atMostOneDefault (applyLookupOps store ops) ∧
        uniqueIDs (applyLookupOps store ops) := by
  intro ops
  induction ops with
  | nil =>
    intro store h1 h2
    exact ⟨h1, h2⟩
  | cons op rest ih =>
    intro store h1 h2
    have hop := applyLookupOp_preserves store op h1 h2
    have hrest := ih (applyLookupOp store op) hop.1 hop.2
    simpa [applyLookupOps, List.foldl_cons] using hrest

/-- C8: starting from a store with no default values (and distinct primary
keys), every sequence of `CreateValue`, `UpdateValue` and `DeleteValue`
handler calls leaves at most one live default value per category, because
every operation that sets `IsDefault = true` first clears the category's
defaults via `ClearDefaultForCategory`. -/
theorem lookup_default_invariant :
    ∀ (ops : List LookupOp) (store : List LookupValue),
      (∀ v ∈ store, v.isDefault = false) →
      uniqueIDs store →
      atMostOneDefault (applyLookupOps store ops) := by
  intro ops store hnone hids
  have h0 : atMostOneDefault store := by
    intro c
    have hz : store.countP (isDefaultIn c) = 0 := by
      rw [List.countP_eq_zero]
      intro v hv
      simp [isDefaultIn, hnone v hv]
    omega
  exact (applyLookupOps_preserves ops store h0 hids).1

/-- A sample creation request claiming the default flag. -/
def sampleCreateReqA : LookupValueCreateRequest :=
  { code := "a"
    name := "A"
    nameAr := ""
    description := ""
    sortOrder := 0
    color := ""
    isDefault := true
    isActive := none }

/-- A second sample creation request also claiming the default flag. -/
def sampleCreateReqB : LookupValueCreateRequest :=
  { sampleCreateReqA with code := "b", name := "B" }

/-- A sample update request re-claiming the default flag. -/
def sampleUpdateReq : LookupValueUpdateRequest :=
  { code := ""
    name := ""
    nameAr := ""
    description := ""
    sortOrder := none
    color := ""
    isDefault := some true
    isActive := none }

/-- A sample operation sequence: two creates that both claim the default,
an update that re-claims it, and a delete. -/
def sampleOps : List LookupOp :=
  [.create 1 10 sampleCreateReqA, .create 1 11 sampleCreateReqB,
   .update 10 sampleUpdateReq, .delete 11]

/-- Witness for C8: running `sampleOps` from the empty store keeps at most
one default per category. -/
theorem lookup_default_invariant_witness :
    atMostOneDefault (applyLookupOps [] sampleOps) :=
  lookup_default_invariant sampleOps [] (by simp) (by simp [uniqueIDs])

end Automax
